import Mathlib

/-!
# fps-test: a shallow embedding of `public/main.js`

The simulation core of the browser shooter is embedded as pure functions over
explicit state:

* JavaScript numbers are taken as exact rationals (`ℚ`); the one operation whose
  exact result is irrational, `Math.sqrt`, returns the square root rounded to the
  nearest 53-bit binary floating-point value, as IEEE-754 prescribes.
* Timestamps (`Date.now()`) and enemy health are integers.
* The three.js library calls used by the program (`Vector3`, `Box3`,
  `Object3D.translateX/Z`, `Raycaster.intersectObjects`) are modelled by what
  they compute. The camera orientation enters as the cosines and sines of the
  yaw and pitch set by the mouse handler, a wall's rotation as its cosine and
  sine, and the ray test as the distance at which the forward ray meets each of
  the meshes handed to `intersectObjects`.
* Global mutable state (`camera.position`, `player`, `enemies`, the scene, the
  pending `setTimeout` callbacks) is passed explicitly; the event handlers and
  `animate` become the events of a step function.
-/

namespace FpsTest

/-! ## Numbers -/

/-- Integer square root, one binary digit per step: `isqrtLoop n b r` decides the
bits `b-1 … 0` on top of the partial root `r`. -/
def isqrtLoop (n : Nat) : Nat → Nat → Nat
  | 0, r => r
  | b + 1, r =>
    if (r + 2 ^ b) * (r + 2 ^ b) ≤ n then isqrtLoop n b (r + 2 ^ b) else isqrtLoop n b r

/-- Halving loop behind `log2`: counts how often `n` can be halved before it
drops below 2. -/
def log2Loop : Nat → Nat → Nat → Nat
  | 0, _, acc => acc
  | fuel + 1, n, acc => if n < 2 then acc else log2Loop fuel (n / 2) (acc + 1)

/-- Binary logarithm `⌊log₂ n⌋` of a natural number (`0` for `n = 0`). -/
def log2 (n : Nat) : Nat := log2Loop n n 0

/-- Integer square root `⌊√n⌋`. -/
def isqrt (n : Nat) : Nat := isqrtLoop n (log2 n / 2 + 1) 0

/-- Power of two with an integer exponent. -/
def pow2 (e : Int) : ℚ :=
  if 0 ≤ e then ((2 ^ e.toNat : Nat) : ℚ) else 1 / ((2 ^ (-e).toNat : Nat) : ℚ)

/-- Binary exponent `⌊log₂ q⌋` of a positive rational. -/
def ilog2 (q : ℚ) : Int :=
  let l : Int := (log2 q.num.natAbs : Int) - (log2 q.den : Int)
  if pow2 l ≤ q then l else l - 1

/-- Model of `Math.sqrt`: the square root rounded to the nearest value with a 53-bit
significand (ties to even); `0` for arguments that are not positive. -/
def Math.sqrt (q : ℚ) : ℚ :=
  if q ≤ 0 then 0 else
    let u : ℚ := pow2 (ilog2 q / 2 - 52)
    let t : ℚ := q / (u * u)
    let s : Nat := isqrt (t.num.natAbs / t.den)
    let mid : ℚ := (s : ℚ) * s + s + 1 / 4
    let m : Nat := if t < mid then s else if mid < t then s + 1 else s + s % 2
    (m : ℚ) * u

/-- Model of `Math.max` on numbers. -/
def Math.max (a b : ℚ) : ℚ := if a ≤ b then b else a

/-- Model of `Math.min` on numbers. -/
def Math.min (a b : ℚ) : ℚ := if a ≤ b then a else b

/-- JavaScript `a || b` on numbers: `b` when `a` is zero. -/
def orElse (a b : ℚ) : ℚ := if a = 0 then b else a

/-! ## three.js vectors and boxes -/

/-- The three.js class `THREE.Vector3`. -/
structure Vector3 where
  x : ℚ
  y : ℚ
  z : ℚ
  deriving DecidableEq, Repr

namespace Vector3

/-- Method `v.add(w)`. -/
def add (v w : Vector3) : Vector3 := ⟨v.x + w.x, v.y + w.y, v.z + w.z⟩

/-- Method `v.sub(w)`. -/
def sub (v w : Vector3) : Vector3 := ⟨v.x - w.x, v.y - w.y, v.z - w.z⟩

/-- Method `v.multiplyScalar(s)`. -/
def multiplyScalar (v : Vector3) (s : ℚ) : Vector3 := ⟨v.x * s, v.y * s, v.z * s⟩

/-- Method `v.length()`. -/
def length (v : Vector3) : ℚ := Math.sqrt (v.x * v.x + v.y * v.y + v.z * v.z)

/-- Method `v.divideScalar(s)`, which three.js computes as `multiplyScalar(1 / s)`. -/
def divideScalar (v : Vector3) (s : ℚ) : Vector3 := v.multiplyScalar (1 / s)

/-- Method `v.normalize()`, that is `divideScalar(length() || 1)`. -/
def normalize (v : Vector3) : Vector3 := v.divideScalar (orElse v.length 1)

end Vector3

/-- The three.js class `THREE.Box3`: an axis-aligned box given by its two extreme corners. -/
structure Box3 where
  min : Vector3
  max : Vector3
  deriving DecidableEq, Repr

namespace Box3

/-- Constructor call `new Box3().setFromCenterAndSize(center, size)`. -/
def setFromCenterAndSize (center size : Vector3) : Box3 :=
  let halfSize := size.multiplyScalar (1 / 2)
  ⟨center.sub halfSize, center.add halfSize⟩

/-- Method `box.isEmpty()`. -/
def isEmpty (b : Box3) : Bool :=
  decide (b.max.x < b.min.x) || decide (b.max.y < b.min.y) || decide (b.max.z < b.min.z)

/-- Method `a.intersectsBox(b)`: the six face tests; touching boxes intersect. -/
def intersectsBox (a b : Box3) : Bool :=
  if b.max.x < a.min.x ∨ b.min.x > a.max.x ∨
     b.max.y < a.min.y ∨ b.min.y > a.max.y ∨
     b.max.z < a.min.z ∨ b.min.z > a.max.z then false else true

/-- Method `box.getCenter(target)`. -/
def getCenter (b : Box3) : Vector3 :=
  if b.isEmpty then ⟨0, 0, 0⟩ else (b.min.add b.max).multiplyScalar (1 / 2)

end Box3

/-! ## Walls -/

/-- The class `Wall extends THREE.Mesh`: a box of the given dimensions centred at
`position` and turned about the vertical axis; the turn `rotation.y` is kept as
its cosine and sine. -/
structure Wall where
  width : ℚ
  height : ℚ
  depth : ℚ
  position : Vector3
  rotCos : ℚ
  rotSin : ℚ
  deriving DecidableEq, Repr

/-- Call `new THREE.Box3().setFromObject(wall)`: the world-space bounding box of the
turned and translated `BoxGeometry(width, height, depth)`. -/
def Box3.setFromObject (wall : Wall) : Box3 :=
  let hx := |wall.rotCos| * (wall.width / 2) + |wall.rotSin| * (wall.depth / 2)
  let hy := wall.height / 2
  let hz := |wall.rotSin| * (wall.width / 2) + |wall.rotCos| * (wall.depth / 2)
  ⟨wall.position.sub ⟨hx, hy, hz⟩, wall.position.add ⟨hx, hy, hz⟩⟩

/-- The four walls of the arena (`const walls`); rotation `0` has cosine 1 and
sine 0, rotation `Math.PI / 2` cosine 0 and sine 1. -/
def walls : List Wall :=
  [ ⟨20, 5, 0.5, ⟨0, 2.5, -10⟩, 1, 0⟩,
    ⟨20, 5, 0.5, ⟨-10, 2.5, 0⟩, 0, 1⟩,
    ⟨20, 5, 0.5, ⟨10, 2.5, 0⟩, 0, 1⟩,
    ⟨20, 5, 0.5, ⟨0, 2.5, 10⟩, 1, 0⟩ ]

/-! ## Player -/

/-- The `player` object (without its weapon). -/
structure Player where
  speed : ℚ
  jumpForce : ℚ
  gravity : ℚ
  velocityY : ℚ
  isOnGround : Bool
  deriving DecidableEq, Repr

/-- The initial value `const player = { speed: 0.15, jumpForce: 0.3, gravity: 0.01, velocityY: 0,
isOnGround: true, … }`. -/
def player : Player := ⟨0.15, 0.3, 0.01, 0, true⟩

/-- The entries of `keysPressed` the program reads. -/
structure Keys where
  w : Bool
  s : Bool
  a : Bool
  d : Bool
  space : Bool
  deriving DecidableEq, Repr

/-- No key held. -/
def Keys.none : Keys := ⟨false, false, false, false, false⟩

/-- The camera orientation set by the mouse handler,
`camera.rotation.set(pitch, yaw, 0, 'YXZ')`, kept as the cosines and sines of
`yaw` and `pitch`. -/
structure Orientation where
  cosYaw : ℚ
  sinYaw : ℚ
  cosPitch : ℚ
  sinPitch : ℚ
  deriving DecidableEq, Repr

/-- The orientation before any mouse movement: yaw 0, pitch 0. -/
def Orientation.initial : Orientation := ⟨1, 0, 1, 0⟩

/-- World-space direction of the camera's local X axis: the rotation
`Ry(yaw) · Rx(pitch)` applied to `(1, 0, 0)`. -/
def Orientation.xAxis (o : Orientation) : Vector3 := ⟨o.cosYaw, 0, -o.sinYaw⟩

/-- World-space direction of the camera's local Z axis: the rotation
`Ry(yaw) · Rx(pitch)` applied to `(0, 0, 1)`. -/
def Orientation.zAxis (o : Orientation) : Vector3 :=
  ⟨o.sinYaw * o.cosPitch, -o.sinPitch, o.cosYaw * o.cosPitch⟩

/-- What one animation frame reads from the input handlers. -/
structure Input where
  keys : Keys
  look : Orientation
  deriving DecidableEq, Repr

/-- The mutable player state: `camera.position` and the `player` object. -/
structure Sim where
  position : Vector3
  player : Player
  deriving DecidableEq, Repr

/-- The state after the top-level script ran: `camera.position.set(0, 1.6, 5)`. -/
def Sim.initial : Sim := ⟨⟨0, 1.6, 5⟩, FpsTest.player⟩

/-- Call `camera.translateX(distance)`: move along the camera's local X axis. -/
def translateX (look : Orientation) (position : Vector3) (distance : ℚ) : Vector3 :=
  position.add (look.xAxis.multiplyScalar distance)

/-- Call `camera.translateZ(distance)`: move along the camera's local Z axis. -/
def translateZ (look : Orientation) (position : Vector3) (distance : ℚ) : Vector3 :=
  position.add (look.zAxis.multiplyScalar distance)

/-- The four movement keys of `handleMovement`, in source order. -/
def moveKeys (inp : Input) (moveSpeed : ℚ) (p : Vector3) : Vector3 :=
  let p1 := if inp.keys.w then translateZ inp.look p (-moveSpeed) else p
  let p2 := if inp.keys.s then translateZ inp.look p1 moveSpeed else p1
  let p3 := if inp.keys.a then translateX inp.look p2 (-moveSpeed) else p2
  if inp.keys.d then translateX inp.look p3 moveSpeed else p3

/-- The jump statement of `handleMovement`:
`if (keysPressed[' '] && player.isOnGround) { velocityY = jumpForce; isOnGround = false }`. -/
def jump (keys : Keys) (pl : Player) : Player :=
  if keys.space && pl.isOnGround then
    { pl with velocityY := pl.jumpForce, isOnGround := false }
  else pl

/-- Gravity and the ground check of `handleMovement`. -/
def applyGravity (s : Sim) : Sim :=
  let velocityY := s.player.velocityY - s.player.gravity
  let y := s.position.y + velocityY
  if y ≤ 1.6 then
    ⟨{ s.position with y := 1.6 }, { s.player with velocityY := 0, isOnGround := true }⟩
  else
    ⟨{ s.position with y := y }, { s.player with velocityY := velocityY }⟩

/-- The function `handleMovement()`. -/
def handleMovement (inp : Input) (s : Sim) : Sim :=
  let moveSpeed := s.player.speed
  let position := moveKeys inp moveSpeed s.position
  applyGravity ⟨position, jump inp.keys s.player⟩

/-- The body of the wall loop of `checkCollisions` for one wall: `playerPosition`
is the clone taken on entry, `position` the live `camera.position`. -/
def collideWall (playerPosition : Vector3) (position : Vector3) (wall : Wall) : Vector3 :=
  let playerRadius : ℚ := 0.5
  let wallBox := Box3.setFromObject wall
  let playerBox := Box3.setFromCenterAndSize playerPosition
    ⟨playerRadius * 2, 3.2, playerRadius * 2⟩
  if playerBox.intersectsBox wallBox then
    let wallCenter := wallBox.getCenter
    let pushDirection := (playerPosition.sub wallCenter).normalize
    position.add (pushDirection.multiplyScalar 0.1)
  else position

/-- The function `checkCollisions()` run against the wall list `ws`. -/
def checkCollisions (ws : List Wall) (position : Vector3) : Vector3 :=
  let playerPosition := position
  let pushed := ws.foldl (collideWall playerPosition) position
  let mapSize : ℚ := 50
  let x := Math.max (-mapSize) (Math.min mapSize pushed.x)
  let z := Math.max (-mapSize) (Math.min mapSize pushed.z)
  ⟨x, pushed.y, z⟩

/-- The player part of one `animate` frame: `handleMovement(); checkCollisions();`. -/
def playerFrame (inp : Input) (s : Sim) : Sim :=
  let s1 := handleMovement inp s
  { s1 with position := checkCollisions walls s1.position }

/-- A run of frames, one input per frame. -/
def playerFrames (inps : List Input) (s : Sim) : Sim :=
  inps.foldl (fun acc inp => playerFrame inp acc) s



/-! ## Enemies -/

/-- The class `Enemy`: `position` and `lookAt` are the position and the facing
of `this.mesh` (the facing kept as the last `lookAt` target), `inScene` tells
whether the mesh is a child of `scene`. -/
structure Enemy where
  position : Vector3
  lookAt : Option Vector3
  inScene : Bool
  health : Int
  speed : ℚ
  targetPosition : Vector3
  deriving DecidableEq, Repr

namespace Enemy

/-- The constructor `new Enemy(x, z)`. -/
def new (x z : ℚ) : Enemy :=
  { position := ⟨x, 1, z⟩, lookAt := none, inScene := true, health := 100, speed := 0.03,
    targetPosition := ⟨0, 0, 0⟩ }

/-- Method `update(playerPosition)`; `sub` and `normalize` work in place on
`this.targetPosition`, which therefore ends up holding the direction. -/
def update (e : Enemy) (playerPosition : Vector3) : Enemy :=
  if e.health ≤ 0 then e else
    let direction := (playerPosition.sub e.position).normalize
    { e with
      targetPosition := direction
      position := ⟨e.position.x + direction.x * e.speed, e.position.y,
        e.position.z + direction.z * e.speed⟩
      lookAt := some playerPosition }

/-- Method `die()`: `scene.remove(this.mesh)`. -/
def die (e : Enemy) : Enemy := { e with inScene := false }

/-- Method `damage(amount)`. -/
def damage (e : Enemy) (amount : Int) : Enemy :=
  let e1 := { e with health := e.health - amount }
  if e1.health ≤ 0 then e1.die else e1

end Enemy

/-! ## Weapon -/

/-- The class `Weapon`; `modelPosition` is `this.model.position`. -/
structure Weapon where
  damage : Int
  range : ℚ
  cooldown : Int
  lastShot : Int
  modelPosition : Vector3
  deriving DecidableEq, Repr

/-- The constructor `new Weapon()`. -/
def Weapon.new : Weapon :=
  { damage := 25, range := 50, cooldown := 500, lastShot := 0,
    modelPosition := ⟨0.3, -0.2, -0.5⟩ }

/-- A callback handed to `setTimeout` and not yet run, with its delay. -/
inductive Timeout where
  | recoilReset (delay : Nat)
  | removeParticles (point : Vector3) (delay : Nat)
  deriving DecidableEq, Repr

/-- One entry of the array returned by `Raycaster.intersectObjects`: `object` is
the mesh that was hit, named by its place in the array of meshes handed in. -/
structure Intersection where
  distance : ℚ
  point : Vector3
  object : Nat
  deriving DecidableEq, Repr

/-- The ray test of three.js for the camera's forward ray: for the mesh at each
place of the array handed to `intersectObjects`, the distance and point of the
nearest intersection, if the ray meets that mesh. -/
abbrev Ray := Nat → Option (ℚ × Vector3)

/-- Call `raycaster.intersectObjects(meshes)` on an array of `n` meshes: every
mesh handed in is tested, whether or not it is still in the scene, and the hits
come back sorted by distance (a stable sort). -/
def intersectObjects (ray : Ray) (n : Nat) : List Intersection :=
  ((List.range n).filterMap fun i => (ray i).map fun h => ⟨h.1, h.2, i⟩).insertionSort
    (fun a b => a.distance ≤ b.distance)

/-! ## The whole game -/

/-- The mutable state of the page: camera position and player, weapon,
`enemies`, the hit-effect particles in the scene, and the pending timeouts. -/
structure Game where
  sim : Sim
  weapon : Weapon
  enemies : List Enemy
  particles : List Vector3
  timers : List Timeout
  deriving DecidableEq, Repr

/-- The loop `for (let i = 0; i < 5; i++) enemies.push(new Enemy(x, z))`, where
`random k` is the value of the `k`-th call of `Math.random()`. -/
def createEnemies (random : Nat → ℚ) : List Enemy :=
  (List.range 5).map fun i =>
    Enemy.new ((random (2 * i) - 0.5) * 30) ((random (2 * i + 1) - 0.5) * 30)

/-- The state after the top-level script ran. -/
def Game.initial (random : Nat → ℚ) : Game :=
  { sim := Sim.initial, weapon := Weapon.new, enemies := createEnemies random,
    particles := [], timers := [] }

/-- Method `createHitEffect(position)`. -/
def Weapon.createHitEffect (position : Vector3) (g : Game) : Game :=
  { g with
    particles := g.particles ++ [position]
    timers := g.timers ++ [Timeout.removeParticles position 100] }

/-- Method `shoot(enemies)` at clock reading `now = Date.now()`; the mesh
`hits[0].object` belongs to the enemy at the same place of `enemies`. -/
def Weapon.shoot (now : Int) (ray : Ray) (g : Game) : Game :=
  if now - g.weapon.lastShot < g.weapon.cooldown then g else
    let g1 : Game :=
      { g with
        weapon := { g.weapon with
          lastShot := now
          modelPosition := { g.weapon.modelPosition with z := g.weapon.modelPosition.z + 0.1 } }
        timers := g.timers ++ [Timeout.recoilReset 50] }
    match intersectObjects ray g1.enemies.length with
    | [] => g1
    | hit :: _ =>
      match g1.enemies[hit.object]? with
      | none => g1
      | some hitEnemy =>
        Weapon.createHitEffect hit.point
          { g1 with enemies := g1.enemies.set hit.object (hitEnemy.damage g1.weapon.damage) }

/-- The function `animate()`, without the rendering. -/
def animate (inp : Input) (g : Game) : Game :=
  let sim := playerFrame inp g.sim
  { g with
    sim := sim
    enemies := g.enemies.map fun enemy =>
      if enemy.health > 0 then enemy.update sim.position else enemy }

/-- Run of the `i`-th pending timeout callback. -/
def runTimeout (i : Nat) (g : Game) : Game :=
  match g.timers[i]? with
  | none => g
  | some (Timeout.recoilReset _) =>
    { g with
      weapon := { g.weapon with
        modelPosition := { g.weapon.modelPosition with z := g.weapon.modelPosition.z - 0.1 } }
      timers := g.timers.eraseIdx i }
  | some (Timeout.removeParticles point _) =>
    { g with particles := g.particles.erase point, timers := g.timers.eraseIdx i }

/-- What the browser can make happen: an animation frame, a press of the left
mouse button (at a clock reading, with the ray test of that instant), or a
timeout that expires. -/
inductive Event where
  | frame (inp : Input)
  | mousedown (now : Int) (ray : Ray)
  | timeout (i : Nat)

/-- Effect of one event. -/
def step (g : Game) : Event → Game
  | Event.frame inp => animate inp g
  | Event.mousedown now ray => Weapon.shoot now ray g
  | Event.timeout i => runTimeout i g

/-- Effect of a sequence of events. -/
def run (evs : List Event) (g : Game) : Game := evs.foldl step g

/-- Clock readings of the `shoot` calls of `evs` that pass the cooldown check,
in the order of the calls. -/
def firedAt : List Event → Game → List Int
  | [], _ => []
  | Event.mousedown now ray :: evs, g =>
    if now - g.weapon.lastShot < g.weapon.cooldown then
      firedAt evs (Weapon.shoot now ray g)
    else now :: firedAt evs (Weapon.shoot now ray g)
  | ev :: evs, g => firedAt evs (step g ev)

/-! ## Concrete inputs used below -/

/-- Key `w` held, camera as at start. -/
def holdW : Input := ⟨⟨true, false, false, false, false⟩, Orientation.initial⟩

/-- Only the jump key held, camera as at start. -/
def holdSpace : Input := ⟨⟨false, false, false, false, true⟩, Orientation.initial⟩

/-- No key held, camera as at start. -/
def idle : Input := ⟨Keys.none, Orientation.initial⟩

/-- Camera looking straight up (pitch `π/2`, the upper clamp of the mouse
handler), yaw 0. -/
def Orientation.up : Orientation := ⟨1, 0, 0, 1⟩

/-- Values of `Math.random()` that put enemy 0 at `(0, 1, -3)` and enemy 1 at
`(0, 1, -5)`, both straight ahead of the camera at `(0, 1.6, 5)` looking along
`-z`, and the other three enemies off that line. -/
def sampleRandom : Nat → ℚ
  | 0 => 0.5
  | 1 => 0.4
  | 2 => 0.5
  | 3 => 1 / 3
  | k => (k : ℚ) / 10

/-- The forward ray meeting only enemy 0, at its front face. -/
def rayFirst : Ray
  | 0 => some (7.5, ⟨0, 1.6, -2.5⟩)
  | _ => none

/-- The forward ray meeting enemy 0 and, behind it, enemy 1. -/
def rayBoth : Ray
  | 0 => some (7.5, ⟨0, 1.6, -2.5⟩)
  | 1 => some (9.5, ⟨0, 1.6, -4.5⟩)
  | _ => none


/-- Four shots, 500 ms apart, each meeting enemy 0 only: they take it from 100
to 0. -/
def fourShots : List Event :=
  [Event.mousedown 500 rayFirst, Event.mousedown 1000 rayFirst,
    Event.mousedown 1500 rayFirst, Event.mousedown 2000 rayFirst]

/-- The state in which enemy 0 is dead (health 0, mesh out of the scene) and
still stands between the camera and the living enemy 1. -/
def deadAhead : Game := run fourShots (Game.initial sampleRandom)

/-- Five shots, 500 ms apart, each meeting enemy 0 only. -/
def fiveShots : List Event := fourShots ++ [Event.mousedown 2500 rayFirst]

/-! ## Predicates used in the proofs -/

/-- Health as the program keeps it: at most 100, a multiple of 25 below 100, and
positive exactly while the mesh is in the scene. -/
def HealthOk (e : Enemy) : Prop :=
  e.health ≤ 100 ∧ (∃ k : ℕ, e.health = 100 - 25 * k) ∧ (e.inScene = true ↔ 0 < e.health)

/-- Same state with the horizontal coordinates replaced. -/
def Sim.atXZ (x z : ℚ) (s : Sim) : Sim := ⟨⟨x, s.position.y, z⟩, s.player⟩

/-- The ground flag as the frames keep it while the movement keys do not lift
the player: gravity is 0.01, the speed 0.15, and a player marked as on the
ground is at rest and not above 1.6. -/
def Grounded (s : Sim) : Prop :=
  s.player.gravity = 0.01 ∧ s.player.speed = 0.15 ∧
    (s.player.isOnGround = true → s.player.velocityY = 0 ∧ s.position.y ≤ 1.6)

/-- The movement keys of this frame do not move the player upward: `w` (forward)
is not held while the camera looks up, `s` (backward) not while it looks down. -/
def NoLift (inp : Input) : Prop :=
  (inp.keys.w = true → inp.look.sinPitch ≤ 0) ∧ (inp.keys.s = true → 0 ≤ inp.look.sinPitch)

/-! ## Checks of the numeric model -/

/-- The modelled `Math.sqrt` at a few arguments: exact on squares, and the
nearest 53-bit value otherwise (the values JavaScript returns for `Math.sqrt(2)`,
`Math.sqrt(0.5)`, and for `549/400`, the squared length met at the first wall
contact). -/
theorem sqrt_values :
    Math.sqrt 0 = 0 ∧ Math.sqrt 4 = 2 ∧ Math.sqrt (1 / 4) = 1 / 2 ∧
      Math.sqrt 2 = 6369051672525773 / 4503599627370496 ∧
      Math.sqrt (1 / 2) = 6369051672525773 / 9007199254740992 ∧
      Math.sqrt (549 / 400) = 2638067814756281 / 2251799813685248 ∧
      Math.sqrt (1 / 100000000000000000000) =
        7737125245533627 / 77371252455336267181195264 := by
  decide!

/-- The bounding boxes of the four arena walls. -/
theorem walls_boxes :
    walls.map Box3.setFromObject =
      [⟨⟨-10, 0, -10.25⟩, ⟨10, 5, -9.75⟩⟩, ⟨⟨-10.25, 0, -10⟩, ⟨-9.75, 5, 10⟩⟩,
        ⟨⟨9.75, 0, -10⟩, ⟨10.25, 5, 10⟩⟩, ⟨⟨-10, 0, 9.75⟩, ⟨10, 5, 10.25⟩⟩] := by
  decide!

/-! ## Lemmas on the weapon -/

/-- The weapon after `shoot`: untouched during cooldown, otherwise stamped with
`now` and kicked back by the recoil. -/
theorem shoot_weapon (now : Int) (ray : Ray) (g : Game) :
    (Weapon.shoot now ray g).weapon =
      if now - g.weapon.lastShot < g.weapon.cooldown then g.weapon
      else { g.weapon with
        lastShot := now
        modelPosition :=
          { g.weapon.modelPosition with z := g.weapon.modelPosition.z + 0.1 } } := by
  unfold Weapon.shoot
  by_cases h : now - g.weapon.lastShot < g.weapon.cooldown
  · simp [h]
  · simp only [h, if_false]
    split
    · rfl
    · split <;> rfl

/-- Frames and timeouts leave the cooldown data of the weapon alone. -/
theorem step_weapon_clock (g : Game) (ev : Event)
    (hev : ∀ now ray, ev ≠ Event.mousedown now ray) :
    (step g ev).weapon.lastShot = g.weapon.lastShot ∧
      (step g ev).weapon.cooldown = g.weapon.cooldown := by
  cases ev with
  | frame inp => exact ⟨rfl, rfl⟩
  | mousedown now ray => exact absurd rfl (hev now ray)
  | timeout i =>
    simp only [step, runTimeout]
    split <;> exact ⟨rfl, rfl⟩

/-- Every call that fires comes at least one cooldown after the last shot on
record, and the calls that fire are pairwise at least one cooldown apart. -/
theorem firedAt_spaced (evs : List Event) :
    ∀ g : Game, g.weapon.cooldown = 500 →
      (∀ t ∈ firedAt evs g, g.weapon.lastShot + 500 ≤ t) ∧
        (firedAt evs g).Pairwise (fun a b => a + 500 ≤ b) := by
  induction evs with
  | nil => intro g _; simp [firedAt]
  | cons ev evs ih =>
    intro g hc
    cases ev with
    | frame inp =>
      have hw := step_weapon_clock g (Event.frame inp) (by intro _ _ h; cases h)
      have := ih (step g (Event.frame inp)) (by rw [hw.2, hc])
      rw [hw.1] at this
      simpa [firedAt] using this
    | timeout i =>
      have hw := step_weapon_clock g (Event.timeout i) (by intro _ _ h; cases h)
      have := ih (step g (Event.timeout i)) (by rw [hw.2, hc])
      rw [hw.1] at this
      simpa [firedAt] using this
    | mousedown now ray =>
      have hs := shoot_weapon now ray g
      by_cases h : now - g.weapon.lastShot < g.weapon.cooldown
      · rw [if_pos h] at hs
        have := ih (Weapon.shoot now ray g) (by rw [hs, hc])
        rw [hs] at this
        simpa [firedAt, h] using this
      · rw [if_neg h] at hs
        have hc2 : (Weapon.shoot now ray g).weapon.cooldown = 500 := by rw [hs]; exact hc
        have hl : (Weapon.shoot now ray g).weapon.lastShot = now := by rw [hs]
        obtain ⟨h1, h2⟩ := ih (Weapon.shoot now ray g) hc2
        rw [hl] at h1
        rw [hc] at h
        simp only [firedAt, hc, h, if_false, List.mem_cons, List.pairwise_cons]
        refine ⟨?_, h1, h2⟩
        intro t ht
        rcases ht with rfl | ht
        · omega
        · have := h1 t ht
          omega


/-! ## Lemmas on enemy health -/

/-- The enemies after `shoot`: the array is unchanged, or exactly one enemy of it
took `weapon.damage`. -/
theorem shoot_enemies (now : Int) (ray : Ray) (g : Game) :
    (Weapon.shoot now ray g).enemies = g.enemies ∨
      ∃ i e, g.enemies[i]? = some e ∧
        (Weapon.shoot now ray g).enemies = g.enemies.set i (e.damage g.weapon.damage) := by
  unfold Weapon.shoot
  by_cases h : now - g.weapon.lastShot < g.weapon.cooldown
  · left; simp [h]
  · simp only [h, if_false]
    split
    · left; rfl
    · rename_i hit _ _
      split
      · left; rfl
      · rename_i hitEnemy he
        right
        exact ⟨hit.object, hitEnemy, he, rfl⟩

/-- No event changes `weapon.damage`. -/
theorem step_weapon_damage (g : Game) (ev : Event) :
    (step g ev).weapon.damage = g.weapon.damage := by
  cases ev with
  | frame inp => rfl
  | mousedown now ray =>
    simp only [step, shoot_weapon]
    split <;> rfl
  | timeout i =>
    simp only [step, runTimeout]
    split <;> rfl

/-- Timeouts leave the enemies alone. -/
theorem runTimeout_enemies (i : Nat) (g : Game) : (runTimeout i g).enemies = g.enemies := by
  unfold runTimeout
  split <;> rfl

/-- The weapon deals 25 in every state reached from the initial one. -/
theorem run_weapon_damage (random : Nat → ℚ) (evs : List Event) :
    (run evs (Game.initial random)).weapon.damage = 25 := by
  have key : ∀ (es : List Event) (g : Game), g.weapon.damage = 25 →
      (run es g).weapon.damage = 25 := by
    intro es
    induction es with
    | nil => intro g h; exact h
    | cons ev es ih =>
      intro g h
      exact ih (step g ev) (by rw [step_weapon_damage, h])
  exact key evs _ rfl

/-- Concatenated event sequences run one after the other. -/
theorem run_append (evs₁ evs₂ : List Event) (g : Game) :
    run (evs₁ ++ evs₂) g = run evs₂ (run evs₁ g) := by
  simp [run, List.foldl_append]

/-- Method `update` changes neither health nor scene membership. -/
theorem update_health (e : Enemy) (p : Vector3) :
    (e.update p).health = e.health ∧ (e.update p).inScene = e.inScene := by
  unfold Enemy.update
  split_ifs <;> exact ⟨rfl, rfl⟩

/-- A hit of 25 keeps `HealthOk`. -/
theorem damage_healthOk (e : Enemy) (h : HealthOk e) : HealthOk (e.damage 25) := by
  obtain ⟨h1, ⟨k, hk⟩, h3⟩ := h
  unfold Enemy.damage Enemy.die
  dsimp only
  split_ifs with hd
  · refine ⟨by dsimp only; omega, ⟨k + 1, by dsimp only; push_cast; omega⟩, ?_⟩
    dsimp only
    constructor
    · intro hf; cases hf
    · intro hp; omega
  · refine ⟨by dsimp only; omega, ⟨k + 1, by dsimp only; push_cast; omega⟩, ?_⟩
    dsimp only
    constructor
    · intro _; omega
    · intro _; exact h3.2 (by omega)

/-- One event keeps `HealthOk` for every enemy. -/
theorem step_healthOk (g : Game) (ev : Event) (hd : g.weapon.damage = 25)
    (h : ∀ e ∈ g.enemies, HealthOk e) : ∀ e ∈ (step g ev).enemies, HealthOk e := by
  cases ev with
  | frame inp =>
    intro e he
    simp only [step, animate, List.mem_map] at he
    obtain ⟨e0, he0, rfl⟩ := he
    split_ifs
    · have hu := update_health e0 (playerFrame inp g.sim).position
      have h0 := h e0 he0
      unfold HealthOk at h0 ⊢
      rw [hu.1, hu.2]
      exact h0
    · exact h e0 he0
  | mousedown now ray =>
    intro e he
    simp only [step] at he
    rcases shoot_enemies now ray g with hs | ⟨i, e0, hi, hs⟩
    · rw [hs] at he; exact h e he
    · rw [hs, hd] at he
      rcases List.mem_or_eq_of_mem_set he with hm | rfl
      · exact h e hm
      · exact damage_healthOk e0 (h e0 (List.getElem?_mem hi))
  | timeout i =>
    intro e he
    simp only [step, runTimeout_enemies] at he
    exact h e he

/-- Every enemy of a state reached from the initial one satisfies `HealthOk`: its
health is at most 100, of the form `100 - 25 k`, and positive exactly while its
mesh is in the scene. -/
theorem run_healthOk (random : Nat → ℚ) (evs : List Event) :
    ∀ e ∈ (run evs (Game.initial random)).enemies, HealthOk e := by
  have key : ∀ (es : List Event) (g : Game), g.weapon.damage = 25 →
      (∀ e ∈ g.enemies, HealthOk e) → ∀ e ∈ (run es g).enemies, HealthOk e := by
    intro es
    induction es with
    | nil => intro g _ h; exact h
    | cons ev es ih =>
      intro g hd h
      exact ih (step g ev) (by rw [step_weapon_damage, hd]) (step_healthOk g ev hd h)
  have hinit : ∀ e ∈ (Game.initial random).enemies, HealthOk e := by
    intro e he
    simp only [Game.initial, createEnemies, List.mem_map] at he
    obtain ⟨i, _, rfl⟩ := he
    exact ⟨le_refl _, ⟨0, rfl⟩, by simp [Enemy.new]⟩
  exact key evs (Game.initial random) rfl hinit

/-- A dead enemy stays where it is and stays dead through one event. -/
theorem step_dead (g : Game) (ev : Event) (hd : g.weapon.damage = 25) (i : Nat) (e : Enemy)
    (he : g.enemies[i]? = some e) (hdead : e.health ≤ 0) :
    ∃ e1, (step g ev).enemies[i]? = some e1 ∧ e1.health ≤ 0 ∧ e1.position = e.position := by
  cases ev with
  | frame inp =>
    refine ⟨e, ?_, hdead, rfl⟩
    simp only [step, animate, List.getElem?_map, he, Option.map_some']
    rw [if_neg (by omega)]
  | mousedown now ray =>
    simp only [step]
    rcases shoot_enemies now ray g with hs | ⟨j, e0, hj, hs⟩
    · exact ⟨e, by rw [hs]; exact he, hdead, rfl⟩
    · rw [hs, List.getElem?_set]
      by_cases hji : j = i
      · subst hji
        have hlt : j < g.enemies.length := by
          by_contra hc
          rw [List.getElem?_eq_none (by omega)] at he
          cases he
        rw [if_pos rfl, if_pos hlt]
        have : e0 = e := by rw [hj] at he; exact Option.some.inj he
        subst this
        refine ⟨_, rfl, ?_, ?_⟩
        · unfold Enemy.damage Enemy.die
          dsimp only
          split_ifs <;> (dsimp only; omega)
        · unfold Enemy.damage Enemy.die
          dsimp only
          split_ifs <;> rfl
      · rw [if_neg hji]
        exact ⟨e, he, hdead, rfl⟩
  | timeout j =>
    simp only [step, runTimeout_enemies]
    exact ⟨e, he, hdead, rfl⟩

/-- A dead enemy stays where it is and stays dead through any run of events. -/
theorem run_dead (evs : List Event) :
    ∀ (g : Game) (i : Nat) (e : Enemy), g.weapon.damage = 25 → g.enemies[i]? = some e →
      e.health ≤ 0 →
      ∃ e1, (run evs g).enemies[i]? = some e1 ∧ e1.health ≤ 0 ∧ e1.position = e.position := by
  induction evs with
  | nil => intro g i e _ he hdead; exact ⟨e, he, hdead, rfl⟩
  | cons ev evs ih =>
    intro g i e hd he hdead
    obtain ⟨e1, h1, h2, h3⟩ := step_dead g ev hd i e he hdead
    obtain ⟨e2, k1, k2, k3⟩ := ih (step g ev) i e1 (by rw [step_weapon_damage, hd]) h1 h2
    exact ⟨e2, k1, k2, by rw [k3, h3]⟩

/-! ## Lemmas on the vertical motion -/

/-- Without a movement key, `handleMovement` is the jump followed by gravity. -/
theorem handleMovement_no_move (space : Bool) (look : Orientation) (s : Sim) :
    handleMovement ⟨⟨false, false, false, false, space⟩, look⟩ s =
      applyGravity ⟨s.position, jump ⟨false, false, false, false, space⟩ s.player⟩ := by
  simp [handleMovement, moveKeys]

/-- Gravity and the ground check do not look at the horizontal coordinates. -/
theorem applyGravity_atXZ (x z : ℚ) (s : Sim) :
    applyGravity (s.atXZ x z) = (applyGravity s).atXZ x z := by
  unfold applyGravity Sim.atXZ
  dsimp only
  split_ifs <;> rfl

/-- Without a movement key the vertical motion is the same wherever the player
stands and wherever the camera looks. -/
theorem handleMovement_atXZ (space : Bool) (look : Orientation) (x z : ℚ) (s : Sim) :
    handleMovement ⟨⟨false, false, false, false, space⟩, look⟩ (s.atXZ x z) =
      (handleMovement ⟨⟨false, false, false, false, space⟩, Orientation.initial⟩ s).atXZ x z := by
  rw [handleMovement_no_move, handleMovement_no_move]
  exact applyGravity_atXZ x z ⟨s.position, jump ⟨false, false, false, false, space⟩ s.player⟩

/-- Iterated form of `handleMovement_atXZ` with no key held. -/
theorem iterate_idle_atXZ (look : Orientation) (x z : ℚ) (n : Nat) :
    ∀ s : Sim, (handleMovement ⟨Keys.none, look⟩)^[n] (s.atXZ x z) =
      ((handleMovement idle)^[n] s).atXZ x z := by
  induction n with
  | zero => intro s; rfl
  | succ n ih =>
    intro s
    rw [Function.iterate_succ_apply, Function.iterate_succ_apply]
    have h := handleMovement_atXZ false look x z s
    have e1 : (⟨⟨false, false, false, false, false⟩, look⟩ : Input) = ⟨Keys.none, look⟩ := rfl
    have e2 : (⟨⟨false, false, false, false, false⟩, Orientation.initial⟩ : Input) = idle := rfl
    rw [e1, e2] at h
    rw [h, ih]

/-! ## Lemmas on the ground flag -/

/-- Powers of two are positive. -/
theorem pow2_pos (e : Int) : 0 < pow2 e := by
  unfold pow2
  split_ifs <;> positivity

/-- The modelled square root is never negative. -/
theorem sqrt_nonneg (q : ℚ) : 0 ≤ Math.sqrt q := by
  unfold Math.sqrt
  split_ifs
  · exact le_refl 0
  · dsimp only
    exact mul_nonneg (Nat.cast_nonneg _) (le_of_lt (pow2_pos _))

/-- Normalising keeps the sign of a vertical component that points down. -/
theorem normalize_y_nonpos (v : Vector3) (h : v.y ≤ 0) : v.normalize.y ≤ 0 := by
  have hlen : 0 < orElse v.length 1 := by
    unfold orElse
    split_ifs with h0
    · exact one_pos
    · exact lt_of_le_of_ne (sqrt_nonneg _) (Ne.symm h0)
  simp only [Vector3.normalize, Vector3.divideScalar, Vector3.multiplyScalar]
  exact mul_nonpos_of_nonpos_of_nonneg h (le_of_lt (one_div_pos.mpr hlen))

/-- A wall whose box centre is not below the player never pushes the player up. -/
theorem collideWall_y_le (playerPosition position : Vector3) (wall : Wall)
    (h : playerPosition.y ≤ (Box3.setFromObject wall).getCenter.y) :
    (collideWall playerPosition position wall).y ≤ position.y := by
  unfold collideWall
  dsimp only
  split_ifs
  · have hn := normalize_y_nonpos (playerPosition.sub (Box3.setFromObject wall).getCenter)
      (by simp only [Vector3.sub]; linarith)
    simp only [Vector3.add, Vector3.multiplyScalar]
    have : (playerPosition.sub (Box3.setFromObject wall).getCenter).normalize.y * 0.1 ≤ 0 :=
      mul_nonpos_of_nonpos_of_nonneg hn (by norm_num)
    linarith
  · exact le_refl _

/-- The wall loop never pushes the player up when every wall's box centre is at
or above the player. -/
theorem foldl_collideWall_y_le (playerPosition : Vector3) (ws : List Wall)
    (h : ∀ w ∈ ws, playerPosition.y ≤ (Box3.setFromObject w).getCenter.y) :
    ∀ position : Vector3, (ws.foldl (collideWall playerPosition) position).y ≤ position.y := by
  induction ws with
  | nil => intro position; exact le_refl _
  | cons w ws ih =>
    intro position
    rw [List.foldl_cons]
    exact le_trans (ih (fun w1 hw1 => h w1 (List.mem_cons_of_mem _ hw1)) _)
      (collideWall_y_le playerPosition position w (h w (List.mem_cons_self _ _)))

/-- The box of each of the four arena walls is centred at height 2.5. -/
theorem walls_center_y : ∀ w ∈ walls, (Box3.setFromObject w).getCenter.y = 2.5 := by
  decide!

/-- Against the arena walls, `checkCollisions` never raises a player who is at
most 2.5 high. -/
theorem checkCollisions_y_le (position : Vector3) (h : position.y ≤ 2.5) :
    (checkCollisions walls position).y ≤ position.y := by
  simp only [checkCollisions]
  exact foldl_collideWall_y_le position walls
    (fun w hw => by rw [walls_center_y w hw]; exact h) position

/-- The movement keys do not raise the player in a frame with `NoLift`. -/
theorem moveKeys_y_le (inp : Input) (moveSpeed : ℚ) (p : Vector3) (hs : 0 ≤ moveSpeed)
    (h : NoLift inp) : (moveKeys inp moveSpeed p).y ≤ p.y := by
  obtain ⟨⟨w, s, a, d, space⟩, look⟩ := inp
  obtain ⟨hw, hs2⟩ := h
  dsimp only at hw hs2
  have e1 : ∀ q : Vector3, (translateX look q moveSpeed).y = q.y := by
    intro q; simp [translateX, Vector3.add, Vector3.multiplyScalar, Orientation.xAxis]
  have e2 : ∀ q : Vector3, (translateX look q (-moveSpeed)).y = q.y := by
    intro q; simp [translateX, Vector3.add, Vector3.multiplyScalar, Orientation.xAxis]
  have e3 : ∀ q : Vector3, (translateZ look q moveSpeed).y = q.y - look.sinPitch * moveSpeed := by
    intro q; simp [translateZ, Vector3.add, Vector3.multiplyScalar, Orientation.zAxis]; ring
  have e4 : ∀ q : Vector3,
      (translateZ look q (-moveSpeed)).y = q.y + look.sinPitch * moveSpeed := by
    intro q; simp [translateZ, Vector3.add, Vector3.multiplyScalar, Orientation.zAxis]
  have hdw : w = true → look.sinPitch * moveSpeed ≤ 0 := fun hwt =>
    mul_nonpos_of_nonpos_of_nonneg (hw hwt) hs
  have hds : s = true → 0 ≤ look.sinPitch * moveSpeed := fun hst =>
    mul_nonneg (hs2 hst) hs
  unfold moveKeys
  dsimp only
  cases w <;> cases s <;> cases a <;> cases d <;>
    simp only [if_true, if_false, Bool.false_eq_true, e1, e2, e3, e4] <;>
    first
      | exact le_refl _
      | linarith [hdw rfl, hds rfl]
      | linarith [hdw rfl]
      | linarith [hds rfl]

/-- A frame with `NoLift` keeps `Grounded`. -/
theorem playerFrame_grounded (inp : Input) (s : Sim) (hl : NoLift inp)
    (h : Grounded s) : Grounded (playerFrame inp s) := by
  obtain ⟨hg, hsp, hflag⟩ := h
  have hm : Grounded (handleMovement inp s) := by
    have hy := moveKeys_y_le inp s.player.speed s.position (by rw [hsp]; norm_num) hl
    unfold handleMovement applyGravity
    dsimp only
    have hjg : (jump inp.keys s.player).gravity = 0.01 := by
      unfold jump; split_ifs <;> exact hg
    have hjs : (jump inp.keys s.player).speed = 0.15 := by
      unfold jump; split_ifs <;> exact hsp
    split_ifs with hsnap
    · exact ⟨hjg, hjs, fun _ => ⟨rfl, le_refl _⟩⟩
    · refine ⟨hjg, hjs, ?_⟩
      dsimp only
      intro hon
      exfalso
      apply hsnap
      have hnj : jump inp.keys s.player = s.player := by
        unfold jump
        split_ifs with hj
        · unfold jump at hon
          rw [if_pos hj] at hon
          cases hon
        · rfl
      rw [hnj] at hon ⊢
      obtain ⟨hv, hpos⟩ := hflag hon
      rw [hv, hg]
      norm_num at hpos ⊢
      linarith
  obtain ⟨hg1, hsp1, hflag1⟩ := hm
  refine ⟨hg1, hsp1, ?_⟩
  intro hon
  obtain ⟨hv, hpos⟩ := hflag1 hon
  refine ⟨hv, ?_⟩
  have h25 : (handleMovement inp s).position.y ≤ 2.5 := by
    norm_num at hpos ⊢
    linarith
  exact le_trans (checkCollisions_y_le _ h25) hpos

/-- Frames with `NoLift` keep `Grounded`. -/
theorem playerFrames_grounded (inps : List Input) (hl : ∀ inp ∈ inps, NoLift inp) :
    ∀ s : Sim, Grounded s → Grounded (playerFrames inps s) := by
  induction inps with
  | nil => intro s h; exact h
  | cons inp inps ih =>
    intro s h
    exact ih (fun i hi => hl i (List.mem_cons_of_mem _ hi)) (playerFrame inp s)
      (playerFrame_grounded inp s (hl inp (List.mem_cons_self _ _)) h)

/-- The jump branch of `handleMovement` is taken exactly when the jump key is
held and `isOnGround` is true; otherwise the call is the movement keys followed
by gravity on the unchanged player. -/
theorem handleMovement_jump_guard (inp : Input) (s : Sim) :
    (¬ (inp.keys.space = true ∧ s.player.isOnGround = true) →
        handleMovement inp s =
          applyGravity ⟨moveKeys inp s.player.speed s.position, s.player⟩) ∧
      (inp.keys.space = true → s.player.isOnGround = true →
        handleMovement inp s =
          applyGravity ⟨moveKeys inp s.player.speed s.position,
            { s.player with velocityY := s.player.jumpForce, isOnGround := false }⟩) := by
  constructor
  · intro hn
    unfold handleMovement jump
    dsimp only
    rw [if_neg (by simpa using hn)]
  · intro h1 h2
    unfold handleMovement jump
    dsimp only
    rw [if_pos (by simp [h1, h2])]

/-- As long as the movement keys never lift the player (`NoLift` in every
frame), a state reached from the initial one has `isOnGround` true only at or
below 1.6, and above 1.6 holding the jump key changes nothing. -/
theorem ground_flag_sound_without_lift (inps : List Input) (hl : ∀ inp ∈ inps, NoLift inp) :
    ((playerFrames inps Sim.initial).player.isOnGround = true →
        (playerFrames inps Sim.initial).position.y ≤ 1.6) ∧
      (1.6 < (playerFrames inps Sim.initial).position.y →
        ∀ (w s a d : Bool) (look : Orientation),
          handleMovement ⟨⟨w, s, a, d, true⟩, look⟩ (playerFrames inps Sim.initial) =
            handleMovement ⟨⟨w, s, a, d, false⟩, look⟩ (playerFrames inps Sim.initial)) := by
  have hinv : Grounded (playerFrames inps Sim.initial) :=
    playerFrames_grounded inps hl Sim.initial ⟨rfl, rfl, fun _ => ⟨rfl, le_refl _⟩⟩
  constructor
  · intro hon
    exact (hinv.2.2 hon).2
  · intro habove w s a d look
    have hoff : (playerFrames inps Sim.initial).player.isOnGround = false := by
      cases hb : (playerFrames inps Sim.initial).player.isOnGround with
      | false => rfl
      | true => exact absurd (hinv.2.2 hb).2 (not_le.mpr habove)
    simp [handleMovement, jump, moveKeys, hoff]

/-! ## The claims -/

/-- C1: a `shoot` call during cooldown (`now - lastShot < cooldown`) is a no-op:
the whole state is returned unchanged, so `lastShot`, every enemy's health, the
gun model position and the scene stay as they were and no timeout is scheduled. -/
theorem shoot_during_cooldown_noop (g : Game) (now : Int) (ray : Ray)
    (h : now - g.weapon.lastShot < g.weapon.cooldown) :
    Weapon.shoot now ray g = g ∧
      (Weapon.shoot now ray g).weapon.lastShot = g.weapon.lastShot ∧
      (Weapon.shoot now ray g).enemies.map (fun e => e.health) =
        g.enemies.map (fun e => e.health) ∧
      (Weapon.shoot now ray g).weapon.modelPosition = g.weapon.modelPosition ∧
      (Weapon.shoot now ray g).enemies.map (fun e => e.inScene) =
        g.enemies.map (fun e => e.inScene) ∧
      (Weapon.shoot now ray g).particles = g.particles ∧
      (Weapon.shoot now ray g).timers = g.timers := by
  have e : Weapon.shoot now ray g = g := by
    unfold Weapon.shoot
    rw [if_pos h]
  rw [e]
  exact ⟨rfl, rfl, rfl, rfl, rfl, rfl, rfl⟩

/-- Witness for C1 (Scenario C): a shot at clock reading 1000, then a second
call 100 ms later. -/
theorem shoot_during_cooldown_noop_witness :
    (1100 - (Weapon.shoot 1000 rayFirst (Game.initial sampleRandom)).weapon.lastShot <
        (Weapon.shoot 1000 rayFirst (Game.initial sampleRandom)).weapon.cooldown) ∧
      Weapon.shoot 1100 rayFirst (Weapon.shoot 1000 rayFirst (Game.initial sampleRandom)) =
        Weapon.shoot 1000 rayFirst (Game.initial sampleRandom) :=
  ⟨by decide!,
    (shoot_during_cooldown_noop (Weapon.shoot 1000 rayFirst (Game.initial sampleRandom))
      1100 rayFirst (by decide!)).1⟩

/-- C6: whatever the player position and the wall list, after `checkCollisions`
the position has `-50 ≤ x ≤ 50` and `-50 ≤ z ≤ 50`. -/
theorem checkCollisions_within_map (ws : List Wall) (position : Vector3) :
    -50 ≤ (checkCollisions ws position).x ∧ (checkCollisions ws position).x ≤ 50 ∧
      -50 ≤ (checkCollisions ws position).z ∧ (checkCollisions ws position).z ≤ 50 := by
  simp only [checkCollisions, Math.max, Math.min]
  refine ⟨?_, ?_, ?_, ?_⟩ <;> split_ifs <;> linarith

/-- C7: starting from the initial state (`lastShot = 0`, `cooldown = 500`), in
every sequence of events the `shoot` calls that pass the cooldown check have
clock readings pairwise at least 500 apart, the later call having the larger one. -/
theorem one_fire_per_cooldown_window (random : Nat → ℚ) (evs : List Event) :
    (firedAt evs (Game.initial random)).Pairwise (fun a b => a + 500 ≤ b) :=
  (firedAt_spaced evs (Game.initial random) rfl).2

/-- C9 (Scenario B): from `y = 1.6`, `velocityY = 0`, `isOnGround = true`, the
call with the jump key held applies the impulse 0.3 and ends with `y = 1.89`,
`velocityY = 0.29`, `isOnGround = false`; with the key released, the player is
strictly above 1.6 and not on the ground after each of the calls 1 to 58, and
the 59th call snaps `y` to 1.6 with `velocityY = 0` and `isOnGround = true`. -/
theorem jump_trajectory (x z : ℚ) (look : Orientation) :
    (jump ⟨false, false, false, false, true⟩ player).velocityY = 0.3 ∧
      handleMovement ⟨⟨false, false, false, false, true⟩, look⟩ ⟨⟨x, 1.6, z⟩, player⟩ =
        ⟨⟨x, 1.89, z⟩, { player with velocityY := 0.29, isOnGround := false }⟩ ∧
      (∀ n < 58,
        1.6 < ((handleMovement ⟨Keys.none, look⟩)^[n]
            (handleMovement ⟨⟨false, false, false, false, true⟩, look⟩
              ⟨⟨x, 1.6, z⟩, player⟩)).position.y ∧
          ((handleMovement ⟨Keys.none, look⟩)^[n]
            (handleMovement ⟨⟨false, false, false, false, true⟩, look⟩
              ⟨⟨x, 1.6, z⟩, player⟩)).player.isOnGround = false) ∧
      (handleMovement ⟨Keys.none, look⟩)^[58]
          (handleMovement ⟨⟨false, false, false, false, true⟩, look⟩ ⟨⟨x, 1.6, z⟩, player⟩) =
        ⟨⟨x, 1.6, z⟩, player⟩ := by
  have hs : (⟨⟨x, 1.6, z⟩, player⟩ : Sim) = (⟨⟨0, 1.6, 0⟩, player⟩ : Sim).atXZ x z := rfl
  have hrun : ∀ n, (handleMovement ⟨Keys.none, look⟩)^[n]
      (handleMovement ⟨⟨false, false, false, false, true⟩, look⟩ ⟨⟨x, 1.6, z⟩, player⟩) =
      ((handleMovement idle)^[n] (handleMovement holdSpace ⟨⟨0, 1.6, 0⟩, player⟩)).atXZ x z := by
    intro n
    rw [hs, handleMovement_atXZ true look x z, iterate_idle_atXZ]
    rfl
  have h0 := hrun 0
  simp only [Function.iterate_zero, id_eq] at h0
  have hair : ∀ n < 58,
      1.6 < ((handleMovement idle)^[n]
          (handleMovement holdSpace ⟨⟨0, 1.6, 0⟩, player⟩)).position.y ∧
        ((handleMovement idle)^[n]
          (handleMovement holdSpace ⟨⟨0, 1.6, 0⟩, player⟩)).player.isOnGround = false := by
    decide!
  have hland : (handleMovement idle)^[58] (handleMovement holdSpace ⟨⟨0, 1.6, 0⟩, player⟩) =
      ⟨⟨0, 1.6, 0⟩, player⟩ := by decide!
  have hfirst : handleMovement holdSpace ⟨⟨0, 1.6, 0⟩, player⟩ =
      ⟨⟨0, 1.89, 0⟩, { player with velocityY := 0.29, isOnGround := false }⟩ := by decide!
  refine ⟨by decide!, ?_, ?_, ?_⟩
  · rw [h0, hfirst]; rfl
  · intro n hn
    rw [hrun n]
    exact hair n hn
  · rw [hrun 58, hland]; rfl


/-- C2, the code at the failing input: in `deadAhead` enemy 0 is dead (health 0,
out of the scene) and the living enemy 1 (health 100) is behind it on the
forward ray. The call passes the cooldown check and sets `lastShot`, but the
nearest mesh is the dead enemy's: enemy 0 goes to -25 and the living enemy on
the ray keeps its 100. -/
theorem shoot_damages_dead_enemy_in_front :
    deadAhead.enemies.map (fun e => (e.health, e.inScene)) =
        [(0, false), (100, true), (100, true), (100, true), (100, true)] ∧
      (rayBoth 0).isSome = true ∧ (rayBoth 1).isSome = true ∧
      ¬ (2500 - deadAhead.weapon.lastShot < deadAhead.weapon.cooldown) ∧
      (Weapon.shoot 2500 rayBoth deadAhead).weapon.lastShot = 2500 ∧
      (Weapon.shoot 2500 rayBoth deadAhead).enemies.map (fun e => e.health) =
        [-25, 100, 100, 100, 100] := by
  decide!

/-- C3, the code at the failing input: four shots take enemy 0 from 100 to 0
and its mesh out of the scene; the fifth shot, 500 ms later with the same ray,
still hits that mesh and leaves the enemy with health -25, so a reachable state
has an enemy whose health is outside `[0, 100]`. -/
theorem health_in_range_fails :
    (run fourShots (Game.initial sampleRandom)).enemies.map (fun e => (e.health, e.inScene)) =
        [(0, false), (100, true), (100, true), (100, true), (100, true)] ∧
      (run fiveShots (Game.initial sampleRandom)).enemies.map (fun e => e.health) =
        [-25, 100, 100, 100, 100] ∧
      ¬ ∀ e ∈ (run fiveShots (Game.initial sampleRandom)).enemies,
        0 ≤ e.health ∧ e.health ≤ 100 := by
  decide!

/-- C10: once an enemy of a reachable state has health `≤ 0`, `update` leaves it
unchanged (position included) for every player position, a hit by the weapon
leaves its health `≤ 0`, and after any further events the same enemy still has
health `≤ 0` and the same position. -/
theorem dead_is_terminal (random : Nat → ℚ) (before later : List Event) (i : Nat) (e : Enemy)
    (he : (run before (Game.initial random)).enemies[i]? = some e) (hdead : e.health ≤ 0) :
    (∀ playerPosition, e.update playerPosition = e) ∧
      (e.damage (run before (Game.initial random)).weapon.damage).health ≤ 0 ∧
      (e.damage (run before (Game.initial random)).weapon.damage).position = e.position ∧
      ∃ e1, (run (before ++ later) (Game.initial random)).enemies[i]? = some e1 ∧
        e1.health ≤ 0 ∧ e1.position = e.position := by
  have hd := run_weapon_damage random before
  refine ⟨?_, ?_, ?_, ?_⟩
  · intro p
    unfold Enemy.update
    rw [if_pos hdead]
  · rw [hd]
    unfold Enemy.damage Enemy.die
    dsimp only
    split_ifs <;> (dsimp only; omega)
  · unfold Enemy.damage Enemy.die
    dsimp only
    split_ifs <;> rfl
  · rw [run_append]
    exact run_dead later _ i e hd he hdead

/-- Witness for C10: enemy 0 after four hits, followed by a fifth shot that
meets it again and a frame with the key `w` held. -/
theorem dead_is_terminal_witness :
    ∃ e, (run fourShots (Game.initial sampleRandom)).enemies[0]? = some e ∧ e.health ≤ 0 ∧
      ∃ e1, (run (fourShots ++ [Event.mousedown 2500 rayFirst, Event.frame holdW])
          (Game.initial sampleRandom)).enemies[0]? = some e1 ∧
        e1.health ≤ 0 ∧ e1.position = e.position :=
  ⟨{ Enemy.new 0 (-3) with health := 0, inScene := false }, by decide!, by decide!,
    (dead_is_terminal sampleRandom fourShots
      [Event.mousedown 2500 rayFirst, Event.frame holdW] 0
      { Enemy.new 0 (-3) with health := 0, inScene := false } (by decide!) (by decide!)).2.2.2⟩


/-- C4, the code at the failing input: with the key `w` held and the camera as
at start, the player walks from `(0, 1.6, 5)` into the wall at `z = -10` (box
from `z = -10.25` to `z = -9.75`): still in front of it after 94 frames, past
`z = -10` after 103 frames and past `z = -11`, beyond the wall, after 110. -/
theorem player_walks_through_wall :
    -9.25 < (playerFrames (List.replicate 94 holdW) Sim.initial).position.z ∧
      (playerFrames (List.replicate 103 holdW) Sim.initial).position.z < -10 ∧
      (playerFrames (List.replicate 110 holdW) Sim.initial).position.z < -11 ∧
      (playerFrames (List.replicate 110 holdW) Sim.initial).position.x = 0 := by
  decide!

/-- C5, the code at the failing input: with the key `w` held for 96 frames the
player touches the wall at `z = -10`, and the push of `checkCollisions`, which
points from the wall's centre at height 2.5 down to the player, leaves
`camera.position.y` below 1.6 at the end of the frame. -/
theorem collision_pushes_below_eye_height :
    (handleMovement holdW (playerFrames (List.replicate 95 holdW) Sim.initial)).position.y =
        1.6 ∧
      (playerFrames (List.replicate 96 holdW) Sim.initial).position.y < 1.6 := by
  decide!

/-- C8, the code at the failing input: one frame with `w` held while the camera
looks straight up lifts the player to `y = 1.74` and leaves `isOnGround` true,
a reachable state in which `isOnGround` holds above 1.6; the jump key then takes
effect in the air (`velocityY` 0.29 and `isOnGround` false, against -0.02 and
true without the key). -/
theorem air_jump_when_looking_up :
    (playerFrame ⟨⟨true, false, false, false, false⟩, Orientation.up⟩ Sim.initial).player.isOnGround
        = true ∧
      (playerFrame ⟨⟨true, false, false, false, false⟩, Orientation.up⟩ Sim.initial).position.y
        = 1.74 ∧
      (handleMovement ⟨⟨false, false, false, false, true⟩, Orientation.up⟩
        (playerFrame ⟨⟨true, false, false, false, false⟩, Orientation.up⟩
          Sim.initial)).player.velocityY = 0.29 ∧
      (handleMovement ⟨⟨false, false, false, false, false⟩, Orientation.up⟩
        (playerFrame ⟨⟨true, false, false, false, false⟩, Orientation.up⟩
          Sim.initial)).player.velocityY = -0.02 ∧
      (handleMovement ⟨⟨false, false, false, false, true⟩, Orientation.up⟩
        (playerFrame ⟨⟨true, false, false, false, false⟩, Orientation.up⟩
          Sim.initial)).player.isOnGround = false ∧
      (handleMovement ⟨⟨false, false, false, false, true⟩, Orientation.up⟩
        (playerFrame ⟨⟨true, false, false, false, false⟩, Orientation.up⟩
          Sim.initial)).position.y = 2.03 := by
  decide!

end FpsTest
